import Mathlib

set_option maxHeartbeats 1000000

/- Shallow embedding of src/modupdate.py (Modrinth mod auto-updater).
   External collaborators (zipfile, json5, requests, the filesystem and the
   interactive operator) are modelled as oracle data carried in the input,
   following the spec's scoping: the archive container format, the relaxed-JSON
   grammar and the HTTP transport are consumed, not designed, so their results
   appear as data. Exceptions of the embedded Python are made explicit. -/

/-- Python exception classes that the embedded code can raise or catch.
All of them are subclasses of Exception, so a bare handler catches each. -/
inductive PyExn
  | keyError
  | indexError
  | fileNotFoundError
  | unicodeDecodeError
  | jsonDecodeError
  | valueError
  | osError
  deriving DecidableEq

/-- Outcome of handing decoded text to the relaxed-JSON parser (json5):
either a parsed document, of which only the "id" field matters
(`none` when the field is missing), or a raised exception
(json5 may raise json.JSONDecodeError or another ValueError). -/
inductive ParseOutcome
  | ok (idField : Option String)
  | jsonError
  | valueError
  deriving DecidableEq

/-- One entry of the archive, with the decode/parse oracle for its bytes:
`utf8Ok` tells whether the bytes decode as UTF-8 (json5.load decodes before
parsing, raising UnicodeDecodeError otherwise); `parsedUtf8` is the parser
outcome on the UTF-8 text, `parsedLatin` the outcome on the lossy latin-1
decode (which itself never raises, because errors="replace"). -/
structure Entry where
  name : String
  utf8Ok : Bool
  parsedUtf8 : ParseOutcome
  parsedLatin : ParseOutcome
  deriving DecidableEq

/-- A local jar file as seen by zipfile.ZipFile: opening either raises
(corrupt or unreadable container) or yields the entry list in archive
enumeration order (z.namelist). -/
inductive Jar
  | corrupt (e : PyExn)
  | zip (entries : List Entry)
  deriving DecidableEq

/-- Python str.endswith. -/
def pyEndsWith (s sfx : String) : Bool := List.isSuffixOf sfx.data s.data

/-- Python x.count for the one-character separator "/" (line 43). -/
def countSep (s : String) : Nat := s.data.count '/'

/-- Python str.lower. -/
def pyLower (s : String) : String := ⟨s.data.map Char.toLower⟩

/-- Python str.strip. -/
def pyStrip (s : String) : String :=
  ⟨((s.data.dropWhile Char.isWhitespace).reverse.dropWhile Char.isWhitespace).reverse⟩

/-- Python truthiness of an optional string: None and "" are falsy. -/
def pyTruthy : Option String → Bool
  | none => false
  | some s => s ≠ ""

/-- Collapses a falsy optional string to `none`: the shape the code's
repeated `if not x` tests discriminate on. -/
def truthify : Option String → Option String
  | none => none
  | some s => if s = "" then none else some s

/-- The fixed manifest suffix of line 40. -/
def manifestSuffix : String := "fabric.mod.json"

/-- Line 40: candidate entries whose name ends with the manifest suffix,
in archive enumeration order. -/
def candidatesOf (entries : List Entry) : List Entry :=
  entries.filter (fun e => pyEndsWith e.name manifestSuffix)

/-- One insertion step of a stable sort by key: an element is placed before
the first element whose key is not smaller, so earlier elements with equal
keys stay in front. -/
def insertByCount (f : Entry → Nat) (x : Entry) : List Entry → List Entry
  | [] => [x]
  | y :: ys => if f x ≤ f y then x :: y :: ys else y :: insertByCount f x ys

/-- Line 43: candidates.sort(key=lambda x: x.count("/")). Python's list.sort
is stable; this stable sort is extensionally the same function. -/
def pySortByCount (f : Entry → Nat) (l : List Entry) : List Entry :=
  l.foldr (insertByCount f) []

/-- Sort key of line 43 lifted to entries: separator count of the name. -/
def sepKey (e : Entry) : Nat := countSep e.name

/-- The entry the extractor reads: candidates[0] after the sort of line 43. -/
def selectedManifest (entries : List Entry) : Option Entry :=
  (pySortByCount sepKey (candidatesOf entries)).head?

/-- Modelled from the spec's words for comparison with the code's selection:
the first-encountered candidate among those of minimum key. -/
def firstMinBy (f : Entry → Nat) : List Entry → Option Entry
  | [] => none
  | x :: xs =>
    match firstMinBy f xs with
    | none => some x
    | some y => if f x ≤ f y then some x else some y

/-- Lines 46-48: json5.load on the opened entry (decodes UTF-8, then parses,
then data.get("id")). -/
def loadUtf8 (c : Entry) : Except PyExn (Option String) :=
  if c.utf8Ok then
    match c.parsedUtf8 with
    | ParseOutcome.ok idf => Except.ok idf
    | ParseOutcome.jsonError => Except.error PyExn.jsonDecodeError
    | ParseOutcome.valueError => Except.error PyExn.valueError
  else Except.error PyExn.unicodeDecodeError

/-- Lines 50-54: latin-1 lossy decode (never raises) then json5.loads and
data.get("id"). -/
def loadLatin (c : Entry) : Except PyExn (Option String) :=
  match c.parsedLatin with
  | ParseOutcome.ok idf => Except.ok idf
  | ParseOutcome.jsonError => Except.error PyExn.jsonDecodeError
  | ParseOutcome.valueError => Except.error PyExn.valueError

/-- Lines 44-58: the nested try blocks around reading candidates[0].
A caught json.JSONDecodeError only logs, so control falls to `return None`
on line 61; any other exception escapes to the outer handler. -/
def readManifest (c : Entry) : Except PyExn (Option String) :=
  match loadUtf8 c with
  | Except.ok idf => Except.ok idf
  | Except.error PyExn.unicodeDecodeError =>
    (match loadLatin c with
     | Except.ok idf => Except.ok idf
     | Except.error PyExn.jsonDecodeError => Except.ok none
     | Except.error e => Except.error e)
  | Except.error PyExn.jsonDecodeError => Except.ok none
  | Except.error e => Except.error e

/-- Lines 40-58: the body of the outer try of get_mod_id_from_jar once the
archive is open. -/
def innerBody (entries : List Entry) : Except PyExn (Option String) :=
  if (candidatesOf entries).isEmpty then Except.ok none
  else
    match selectedManifest entries with
    | none => Except.ok none
    | some c => readManifest c

/-- Lines 38-58: everything inside the outer try, exceptions explicit. -/
def get_mod_id_body : Jar → Except PyExn (Option String)
  | Jar.corrupt e => Except.error e
  | Jar.zip entries => innerBody entries

/-- Lines 37-61: get_mod_id_from_jar. The outer `except Exception` catches
every exception of the body, logs, and control reaches `return None`. -/
def get_mod_id_from_jar (j : Jar) : Option String :=
  match get_mod_id_body j with
  | Except.ok r => r
  | Except.error _ => none

/-- Lines 63-67: prompt_for_slug, as a function of the operator's raw input. -/
def prompt_for_slug (raw : String) : Option String :=
  let slug := pyStrip raw
  if pyLower slug = "skip" then none else some slug

/-- One element of a version's "files" list: url and filename. -/
structure FileInfo where
  url : String
  filename : String
  deriving DecidableEq

/-- One version object of the registry response; only "files" is consumed. -/
structure Version where
  files : List FileInfo
  deriving DecidableEq

/-- Oracle for the version-listing request of lines 77-79: the GET either
raises, or returns a status plus a body; `badBody` stands for a response
whose resp.json() raises. -/
inductive HttpResult
  | transportError
  | badBody (status : Nat)
  | response (status : Nat) (body : List Version)
  deriving DecidableEq

/-- Lines 69-83: get_latest_version. Every exception is caught by the
bare handler, and every non-success path falls through to an implicit
`return None`; on a 200 with a non-empty list, versions[0] is returned
without reordering. -/
def get_latest_version (r : HttpResult) : Option Version :=
  match r with
  | HttpResult.transportError => none
  | HttpResult.badBody _ => none
  | HttpResult.response status versions =>
    if status = 200 then
      match versions with
      | [] => none
      | v :: _ => some v
    else none

/-- Line 141: version_data["files"][0]; raises IndexError on an empty list
(main has no handler for it). -/
def downloadDescriptor (v : Version) : Except PyExn FileInfo :=
  match v.files with
  | [] => Except.error PyExn.indexError
  | f :: _ => Except.ok f

/-- Return value of download_file: the string "I" (already present), True,
or False, as a closed type. -/
inductive DownResp
  | already
  | success
  | failure
  deriving DecidableEq

/-- Lines 85-96: download_file over a filesystem modelled as the list of
existing paths; `ok` is the oracle for "the GET succeeded with status 200".
When the destination already exists it returns "I" before any request. -/
def download_file (ok : Bool) (fs : List String) (dest : String) :
    DownResp × List String :=
  if dest ∈ fs then (DownResp.already, fs)
  else if ok then (DownResp.success, dest :: fs)
  else (DownResp.failure, fs)

/-- Lines 98-100: validate_mod_id re-runs the extractor on the new jar and
compares with the expected id (Python ==, where None == None is True). -/
def validate_mod_id (newJar : Jar) (expected : Option String) :
    Option String × Bool :=
  let new_id := get_mod_id_from_jar newJar
  (new_id, new_id == expected)

/-- The in-memory cache dict: identifier key (the code can insert None as a
key) to slug, as an association list with unique keys. -/
abbrev Cache := List (Option String × String)

/-- Python cache.get(k): value at k, or None. -/
def cGet : Cache → Option String → Option String
  | [], _ => none
  | (k', v') :: rest, k => if k' = k then some v' else cGet rest k

/-- Python cache[k] = v: replace the value at an existing key in place,
else append. -/
def cSet : Cache → Option String → String → Cache
  | [], k, v => [(k, v)]
  | (k', v') :: rest, k, v =>
    if k' = k then (k, v) :: rest else (k', v') :: cSet rest k v

/-- Removal of a key's entry (on unique-key lists this is Python del's
effect on the mapping). -/
def cEraseAll : Cache → Option String → Cache
  | [], _ => []
  | (k', v') :: rest, k =>
    if k' = k then cEraseAll rest k else (k', v') :: cEraseAll rest k

/-- Python `k in cache`. -/
def cContains (c : Cache) (k : Option String) : Bool := (cGet c k).isSome

/-- Python del cache[k], run semantics: raises KeyError when the key is
absent, in which case the mapping is unchanged. -/
def pyDelRun (c : Cache) (k : Option String) : Cache × Option PyExn :=
  if cContains c k then (cEraseAll c k, none) else (c, some PyExn.keyError)

/-- Lines 159-160: the rekey operation, run semantics — cache[new_id] = slug
is executed first, then del cache[mod_id]; if the del raises, the insertion
has already happened and persists in memory. -/
def rekeyRun (c : Cache) (oldId newId : Option String) (slug : String) :
    Cache × Option PyExn :=
  pyDelRun (cSet c newId slug) oldId

/-- Observable events of one loop iteration: cache mutation, full cache
rewrite to disk (save_cache), and every other externally visible action
(logging, prompting, network, file removal) as `ext`. -/
inductive Ev
  | setC (k : Option String) (v : String)
  | delC (k : Option String)
  | save
  | ext (tag : String)
  deriving DecidableEq

/-- State threaded through one iteration of the per-archive loop: the
in-memory cache, the last-persisted cache file contents, the set of existing
file paths, the updated_mods accumulator and the event trace. -/
structure St where
  cache : Cache
  disk : Cache
  fs : List String
  updated : List (String × String)
  trace : List Ev
  deriving DecidableEq

/-- Oracle data for one iteration: the extractor model of the original jar,
the operator's raw prompt reply, the version-listing response, the download
transport outcome, and the extractor model of the downloaded jar. -/
structure Env where
  jar : Jar
  promptInput : String
  http : HttpResult
  downloadOk : Bool
  newJar : Jar
  deriving DecidableEq

def logSt (st : St) (tag : String) : St :=
  { st with trace := st.trace ++ [Ev.ext tag] }

/-- save_cache (lines 33-35): full rewrite of the backing store from the
in-memory mapping. -/
def saveSt (st : St) : St :=
  { st with disk := st.cache, trace := st.trace ++ [Ev.save] }

/-- os.remove's effect on the path set. -/
def fsRemove (fs : List String) (p : String) : List String :=
  fs.filter (fun q => q ≠ p)

def modFolder : String := "./.minecraft/mods"

/-- os.path.join for the relative paths in use. -/
def joinPath (a b : String) : String := a ++ "/" ++ b

/-- Lines 128-135: slug = cache.get(mod_id); on a falsy slug prompt the
operator, and on a truthy reply upsert and save; a falsy reply means the
iteration continues to the next file (first component none). -/
def resolveSlugRun (env : Env) (mid : Option String) (st : St) :
    Option String × St :=
  match truthify (cGet st.cache mid) with
  | some s => (some s, st)
  | none =>
    let st1 := logSt st "prompt"
    match truthify (prompt_for_slug env.promptInput) with
    | none => (none, st1)
    | some s =>
      let st2 := { st1 with cache := cSet st1.cache mid s,
                            trace := st1.trace ++ [Ev.setC mid s] }
      (some s, saveSt st2)

/-- The slug the iteration ends up with, as a function of cache and oracle
only (first component of resolveSlugRun). -/
def slugOf (env : Env) (c : Cache) (mid : Option String) : Option String :=
  match truthify (cGet c mid) with
  | some s => some s
  | none => truthify (prompt_for_slug env.promptInput)

/-- The cache after slug resolution, as a function of cache and oracle only
(cache component of resolveSlugRun). -/
def slugUpsert (env : Env) (c : Cache) (mid : Option String) : Cache :=
  match truthify (cGet c mid) with
  | some _ => c
  | none =>
    match truthify (prompt_for_slug env.promptInput) with
    | none => c
    | some s => cSet c mid s

/-- Lines 163-164: os.remove(path) then updated_mods.append((file, filename));
os.remove raises FileNotFoundError when the path does not exist, in which
case the append is not reached. -/
def finishRemove (st : St) (path file newname : String) : St × Option PyExn :=
  if path ∈ st.fs then
    ({ st with fs := fsRemove st.fs path,
               trace := st.trace ++ [Ev.ext "remove"],
               updated := st.updated ++ [(file, newname)] }, none)
  else ({ st with trace := st.trace ++ [Ev.ext "remove"] },
        some PyExn.fileNotFoundError)

/-- Lines 128-165: the per-archive loop body from the cache lookup on,
given the already-extracted mod_id. -/
def processFileRest (env : Env) (file : String) (mod_id : Option String)
    (st1 : St) : St × Option PyExn :=
  let path := joinPath modFolder file
  match resolveSlugRun env mod_id st1 with
  | (none, st2) => (st2, none)
  | (some slug, st2) =>
    let st3 := logSt st2 "fetch-versions"
    match get_latest_version env.http with
    | none => (logSt st3 "no-compatible-version", none)
    | some version_data =>
      match downloadDescriptor version_data with
      | Except.error e => (st3, some e)
      | Except.ok file_info =>
        let dest_path := joinPath modFolder file_info.filename
        let st4 := logSt st3 "updating"
        match download_file env.downloadOk st4.fs dest_path with
        | (DownResp.already, fs2) =>
          (logSt { st4 with fs := fs2 } "no-updates-needed", none)
        | (DownResp.failure, fs2) =>
          (logSt (logSt { st4 with fs := fs2 } "download") "download-failed",
           none)
        | (DownResp.success, fs2) =>
          let st5 := logSt { st4 with fs := fs2 } "download"
          match validate_mod_id env.newJar mod_id with
          | (new_id, valid) =>
            if valid then
              finishRemove st5 path file file_info.filename
            else
              let st6 := logSt st5 "id-changed"
              match rekeyRun st6.cache mod_id new_id slug with
              | (c2, some e) =>
                ({ st6 with cache := c2,
                            trace := st6.trace ++ [Ev.setC new_id slug] },
                 some e)
              | (c2, none) =>
                let st7 :=
                  { st6 with cache := c2,
                             trace := st6.trace ++ [Ev.setC new_id slug,
                                                    Ev.delC mod_id] }
                finishRemove (saveSt st7) path file file_info.filename

/-- Lines 122-165: one iteration of the per-archive loop of main, run
semantics — the second component is an exception that escapes main (main has
no handler), with the state at the moment of the raise. Note line 125's
`if not mod_id` block has no continue: control falls through to the cache
lookup of line 128 with mod_id still falsy. -/
def processFile (env : Env) (file : String) (st : St) : St × Option PyExn :=
  let mod_id := get_mod_id_from_jar env.jar
  let st1 := if pyTruthy mod_id then st else logSt st "skip-unreadable"
  processFileRest env file mod_id st1

/-- Checker for the flush discipline of a trace: tracks whether an unsaved
cache mutation is pending; a pending mutation must be followed by a save
before any other external action, and none may be pending at the end. -/
def flushedAux : Bool → List Ev → Bool
  | p, [] => !p
  | _, Ev.setC _ _ :: r => flushedAux true r
  | _, Ev.delC _ :: r => flushedAux true r
  | _, Ev.save :: r => flushedAux false r
  | p, Ev.ext _ :: r => !p && flushedAux false r

/-- A jar whose single manifest entry parses with id "foo". -/
def fooJar : Jar :=
  Jar.zip [{ name := "fabric.mod.json", utf8Ok := true,
             parsedUtf8 := ParseOutcome.ok (some "foo"),
             parsedLatin := ParseOutcome.ok none }]

/-- A jar whose single manifest entry parses with id "bar". -/
def barJar : Jar :=
  Jar.zip [{ name := "fabric.mod.json", utf8Ok := true,
             parsedUtf8 := ParseOutcome.ok (some "bar"),
             parsedLatin := ParseOutcome.ok none }]

/-- A jar with no manifest entry at all: extraction yields none. -/
def emptyJar : Jar := Jar.zip []

/-- The download descriptor used in the concrete scenarios below. -/
def fooFile : FileInfo :=
  { url := "https://x/foo-2.0.jar", filename := "foo-2.0.jar" }

/-- A registry answer whose first version's first file is foo-2.0.jar. -/
def fooVersion : Version := { files := [fooFile] }

/-- A fresh iteration state with the given cache and files. -/
def mkSt (c : Cache) (fs : List String) : St :=
  { cache := c, disk := c, fs := fs, updated := [], trace := [] }

/-- Scenario: the original jar is unreadable, the operator answers with a
slug, and the registry is unreachable. -/
def c1Env : Env :=
  { jar := Jar.corrupt PyExn.osError, promptInput := "someslug",
    http := HttpResult.transportError, downloadOk := false,
    newJar := emptyJar }

/-- Scenario: jar with id "foo", operator reply "foomod", registry offers
foo-2.0.jar, download succeeds, and the downloaded jar also has id "foo". -/
def c2Env : Env :=
  { jar := fooJar, promptInput := "foomod",
    http := HttpResult.response 200 [fooVersion],
    downloadOk := true, newJar := fooJar }

/-- Scenario: like c2Env but the downloaded jar reports id "bar". -/
def c3Env : Env :=
  { jar := fooJar, promptInput := "foomod",
    http := HttpResult.response 200 [fooVersion],
    downloadOk := true, newJar := barJar }

/-- Scenario: like c2Env but the downloaded jar has no extractable id. -/
def c10Env : Env :=
  { jar := fooJar, promptInput := "foomod",
    http := HttpResult.response 200 [fooVersion],
    downloadOk := true, newJar := emptyJar }

/-- A manifest entry whose bytes are not UTF-8 and whose latin-1 reparse
fails with a JSON decode error. -/
def badUtf8Entry : Entry :=
  { name := "fabric.mod.json", utf8Ok := false,
    parsedUtf8 := ParseOutcome.ok none,
    parsedLatin := ParseOutcome.jsonError }

/- Helper lemmas. -/

theorem truthify_eq_some {o : Option String} {s : String}
    (h : truthify o = some s) : o = some s := by
  cases o with
  | none => exact absurd h (by simp [truthify])
  | some t =>
    unfold truthify at h
    by_cases ht : t = ""
    · simp [ht] at h
    · simpa [ht] using h

theorem cGet_cSet_self (c : Cache) (k : Option String) (v : String) :
    cGet (cSet c k v) k = some v := by
  induction c with
  | nil => simp [cSet, cGet]
  | cons p rest ih =>
    obtain ⟨ka, va⟩ := p
    by_cases h : ka = k
    · simp [cSet, h, cGet]
    · simp [cSet, h, cGet, ih]

theorem cGet_cSet_ne (c : Cache) {k k2 : Option String} (v : String)
    (h : k ≠ k2) : cGet (cSet c k2 v) k = cGet c k := by
  have h2 : k2 ≠ k := fun hh => h hh.symm
  induction c with
  | nil => simp [cSet, cGet, h2]
  | cons p rest ih =>
    obtain ⟨ka, va⟩ := p
    by_cases hk : ka = k2
    · subst hk
      simp [cSet, cGet, h2]
    · simp [cSet, hk, cGet, ih]

theorem cGet_eraseAll_ne (c : Cache) {k k2 : Option String}
    (h : k ≠ k2) : cGet (cEraseAll c k2) k = cGet c k := by
  induction c with
  | nil => simp [cEraseAll, cGet]
  | cons p rest ih =>
    obtain ⟨ka, va⟩ := p
    by_cases hk : ka = k2
    · have h2 : ¬ ka = k := by
        rw [hk]
        exact fun hh => h hh.symm
      simp [cEraseAll, hk, cGet, h2, ih, Ne.symm h]
    · simp [cEraseAll, hk, cGet, ih]

theorem cContains_eraseAll_self (c : Cache) (k : Option String) :
    cContains (cEraseAll c k) k = false := by
  induction c with
  | nil => simp [cEraseAll, cContains, cGet]
  | cons p rest ih =>
    obtain ⟨ka, va⟩ := p
    by_cases hk : ka = k
    · simpa [cEraseAll, hk] using ih
    · simpa [cEraseAll, cContains, cGet, hk] using ih

@[simp] theorem logSt_cache (st : St) (t : String) :
    (logSt st t).cache = st.cache := rfl

@[simp] theorem logSt_disk (st : St) (t : String) :
    (logSt st t).disk = st.disk := rfl

@[simp] theorem logSt_fs (st : St) (t : String) : (logSt st t).fs = st.fs := rfl

@[simp] theorem logSt_updated (st : St) (t : String) :
    (logSt st t).updated = st.updated := rfl

@[simp] theorem logSt_trace (st : St) (t : String) :
    (logSt st t).trace = st.trace ++ [Ev.ext t] := rfl

@[simp] theorem saveSt_cache (st : St) : (saveSt st).cache = st.cache := rfl

@[simp] theorem saveSt_disk (st : St) : (saveSt st).disk = st.cache := rfl

@[simp] theorem saveSt_fs (st : St) : (saveSt st).fs = st.fs := rfl

@[simp] theorem saveSt_updated (st : St) : (saveSt st).updated = st.updated := rfl

@[simp] theorem saveSt_trace (st : St) :
    (saveSt st).trace = st.trace ++ [Ev.save] := rfl

theorem rsr_fst (env : Env) (mid : Option String) (st : St) :
    (resolveSlugRun env mid st).1 = slugOf env st.cache mid := by
  unfold resolveSlugRun slugOf
  cases h : truthify (cGet st.cache mid) with
  | some s => simp
  | none =>
    cases h2 : truthify (prompt_for_slug env.promptInput) <;> simp [h2]

theorem rsr_cache (env : Env) (mid : Option String) (st : St) :
    (resolveSlugRun env mid st).2.cache = slugUpsert env st.cache mid := by
  unfold resolveSlugRun slugUpsert
  cases h : truthify (cGet st.cache mid) with
  | some s => simp
  | none =>
    cases h2 : truthify (prompt_for_slug env.promptInput) <;> simp [h2]

theorem rsr_fs (env : Env) (mid : Option String) (st : St) :
    (resolveSlugRun env mid st).2.fs = st.fs := by
  unfold resolveSlugRun
  cases h : truthify (cGet st.cache mid) with
  | some s => simp
  | none =>
    cases h2 : truthify (prompt_for_slug env.promptInput) <;> simp [h2]

theorem rsr_updated (env : Env) (mid : Option String) (st : St) :
    (resolveSlugRun env mid st).2.updated = st.updated := by
  unfold resolveSlugRun
  cases h : truthify (cGet st.cache mid) with
  | some s => simp
  | none =>
    cases h2 : truthify (prompt_for_slug env.promptInput) <;> simp [h2]

theorem rsr_trace_flushed (env : Env) (mid : Option String) (st : St) :
    ∃ t, (resolveSlugRun env mid st).2.trace = st.trace ++ t ∧
      flushedAux false t = true := by
  unfold resolveSlugRun
  cases h : truthify (cGet st.cache mid) with
  | some s => exact ⟨[], by simp, rfl⟩
  | none =>
    cases h2 : truthify (prompt_for_slug env.promptInput) with
    | none => exact ⟨[Ev.ext "prompt"], by simp [h2], rfl⟩
    | some s =>
      refine ⟨[Ev.ext "prompt", Ev.setC mid s, Ev.save], ?_, rfl⟩
      simp [h2]

theorem slugUpsert_get (env : Env) (c : Cache) (mid : Option String)
    (s : String) (h : slugOf env c mid = some s) :
    cGet (slugUpsert env c mid) mid = some s := by
  unfold slugOf at h
  unfold slugUpsert
  cases hg : truthify (cGet c mid) with
  | some t =>
    rw [hg] at h
    have ht : t = s := by simpa using h
    subst ht
    simpa using truthify_eq_some hg
  | none =>
    rw [hg] at h
    have hp : truthify (prompt_for_slug env.promptInput) = some s := by
      simpa using h
    simp [hp, cGet_cSet_self]

theorem flushedAux_append (t1 t2 : List Ev) :
    ∀ p, flushedAux p t1 = true → flushedAux false t2 = true →
      flushedAux p (t1 ++ t2) = true := by
  induction t1 with
  | nil =>
    intro p h1 h2
    cases p with
    | false => simpa using h2
    | true => simp [flushedAux] at h1
  | cons e r ih =>
    intro p h1 h2
    cases e with
    | setC k v =>
      simp only [flushedAux, List.cons_append] at h1 ⊢
      exact ih true h1 h2
    | delC k =>
      simp only [flushedAux, List.cons_append] at h1 ⊢
      exact ih true h1 h2
    | save =>
      simp only [flushedAux, List.cons_append] at h1 ⊢
      exact ih false h1 h2
    | ext tag =>
      simp only [flushedAux, List.cons_append, Bool.and_eq_true] at h1 ⊢
      exact ⟨h1.1, ih false h1.2 h2⟩

theorem insertByCount_head (f : Entry → Nat) (x : Entry) (l : List Entry) :
    (insertByCount f x l).head? =
      some (match l.head? with
            | none => x
            | some y => if f x ≤ f y then x else y) := by
  cases l with
  | nil => simp [insertByCount]
  | cons y ys =>
    by_cases h : f x ≤ f y
    · simp [insertByCount, h]
    · simp [insertByCount, h]

theorem pySortByCount_head (f : Entry → Nat) (l : List Entry) :
    (pySortByCount f l).head? = firstMinBy f l := by
  induction l with
  | nil => rfl
  | cons x xs ih =>
    show (insertByCount f x (pySortByCount f xs)).head? = firstMinBy f (x :: xs)
    rw [insertByCount_head]
    unfold firstMinBy
    rw [← ih]
    cases h : (pySortByCount f xs).head? with
    | none => simp
    | some y =>
      by_cases hf : f x ≤ f y
      · simp [hf]
      · simp [hf]

theorem processFile_valid_spec (env : Env) (file : String) (st : St)
    (slug : String) (v : Version) (fi : FileInfo)
    (hslug : slugOf env st.cache (get_mod_id_from_jar env.jar) = some slug)
    (hver : get_latest_version env.http = some v)
    (hfi : downloadDescriptor v = Except.ok fi)
    (hdest : joinPath modFolder fi.filename ∉ st.fs)
    (hok : env.downloadOk = true)
    (hvalid : get_mod_id_from_jar env.newJar = get_mod_id_from_jar env.jar)
    (hpath : joinPath modFolder file ∈ st.fs) :
    (processFile env file st).2 = none ∧
    (processFile env file st).1.cache =
      slugUpsert env st.cache (get_mod_id_from_jar env.jar) ∧
    (processFile env file st).1.fs =
      fsRemove (joinPath modFolder fi.filename :: st.fs)
        (joinPath modFolder file) ∧
    (processFile env file st).1.updated = st.updated ++ [(file, fi.filename)] := by
  have hpath2 : joinPath modFolder file ∈ joinPath modFolder fi.filename :: st.fs :=
    List.mem_cons_of_mem _ hpath
  cases hb : pyTruthy (get_mod_id_from_jar env.jar) with
  | false =>
    rcases hr : resolveSlugRun env (get_mod_id_from_jar env.jar)
        (logSt st "skip-unreadable") with ⟨sr, stA⟩
    have hsr : sr = some slug := by
      have h1 := rsr_fst env (get_mod_id_from_jar env.jar) (logSt st "skip-unreadable")
      rw [hr] at h1
      simpa [hslug] using h1
    subst hsr
    have hAc : stA.cache = slugUpsert env st.cache (get_mod_id_from_jar env.jar) := by
      have h1 := rsr_cache env (get_mod_id_from_jar env.jar) (logSt st "skip-unreadable")
      rw [hr] at h1
      simpa using h1
    have hAfs : stA.fs = st.fs := by
      have h1 := rsr_fs env (get_mod_id_from_jar env.jar) (logSt st "skip-unreadable")
      rw [hr] at h1
      simpa using h1
    have hAup : stA.updated = st.updated := by
      have h1 := rsr_updated env (get_mod_id_from_jar env.jar) (logSt st "skip-unreadable")
      rw [hr] at h1
      simpa using h1
    simp only [processFile, processFileRest, hb, Bool.false_eq_true, if_false, hr, hver, hfi,
      validate_mod_id, hvalid, beq_self_eq_true, if_true, download_file,
      logSt_fs, hAfs, hdest, hok, finishRemove, logSt_cache, logSt_updated]
    simp [hpath2, fsRemove, hAc, hAup]
  | true =>
    rcases hr : resolveSlugRun env (get_mod_id_from_jar env.jar) st with ⟨sr, stA⟩
    have hsr : sr = some slug := by
      have h1 := rsr_fst env (get_mod_id_from_jar env.jar) st
      rw [hr] at h1
      simpa [hslug] using h1
    subst hsr
    have hAc : stA.cache = slugUpsert env st.cache (get_mod_id_from_jar env.jar) := by
      have h1 := rsr_cache env (get_mod_id_from_jar env.jar) st
      rw [hr] at h1
      simpa using h1
    have hAfs : stA.fs = st.fs := by
      have h1 := rsr_fs env (get_mod_id_from_jar env.jar) st
      rw [hr] at h1
      simpa using h1
    have hAup : stA.updated = st.updated := by
      have h1 := rsr_updated env (get_mod_id_from_jar env.jar) st
      rw [hr] at h1
      simpa using h1
    simp only [processFile, processFileRest, hb, if_true, hr, hver, hfi,
      validate_mod_id, hvalid, beq_self_eq_true, download_file,
      logSt_fs, hAfs, hdest, hok, finishRemove, logSt_cache, logSt_updated]
    simp [hpath2, fsRemove, hAc, hAup]

theorem processFile_rekey_spec (env : Env) (file : String) (st : St)
    (slug : String) (v : Version) (fi : FileInfo)
    (hslug : slugOf env st.cache (get_mod_id_from_jar env.jar) = some slug)
    (hver : get_latest_version env.http = some v)
    (hfi : downloadDescriptor v = Except.ok fi)
    (hdest : joinPath modFolder fi.filename ∉ st.fs)
    (hok : env.downloadOk = true)
    (hinvalid : get_mod_id_from_jar env.newJar ≠ get_mod_id_from_jar env.jar)
    (hpath : joinPath modFolder file ∈ st.fs) :
    (processFile env file st).2 = none ∧
    cContains (processFile env file st).1.cache (get_mod_id_from_jar env.jar)
      = false ∧
    cGet (processFile env file st).1.cache (get_mod_id_from_jar env.newJar)
      = some slug ∧
    (processFile env file st).1.fs =
      fsRemove (joinPath modFolder fi.filename :: st.fs)
        (joinPath modFolder file) ∧
    (processFile env file st).1.updated = st.updated ++ [(file, fi.filename)] ∧
    (processFile env file st).1.disk = (processFile env file st).1.cache := by
  have hpath2 : joinPath modFolder file ∈ joinPath modFolder fi.filename :: st.fs :=
    List.mem_cons_of_mem _ hpath
  have hbeq : (get_mod_id_from_jar env.newJar == get_mod_id_from_jar env.jar)
      = false := beq_eq_false_iff_ne.mpr hinvalid
  cases hb : pyTruthy (get_mod_id_from_jar env.jar) with
  | false =>
    rcases hr : resolveSlugRun env (get_mod_id_from_jar env.jar)
        (logSt st "skip-unreadable") with ⟨sr, stA⟩
    have hsr : sr = some slug := by
      have h1 := rsr_fst env (get_mod_id_from_jar env.jar) (logSt st "skip-unreadable")
      rw [hr] at h1
      simpa [hslug] using h1
    subst hsr
    have hAc : stA.cache = slugUpsert env st.cache (get_mod_id_from_jar env.jar) := by
      have h1 := rsr_cache env (get_mod_id_from_jar env.jar) (logSt st "skip-unreadable")
      rw [hr] at h1
      simpa using h1
    have hAfs : stA.fs = st.fs := by
      have h1 := rsr_fs env (get_mod_id_from_jar env.jar) (logSt st "skip-unreadable")
      rw [hr] at h1
      simpa using h1
    have hAup : stA.updated = st.updated := by
      have h1 := rsr_updated env (get_mod_id_from_jar env.jar) (logSt st "skip-unreadable")
      rw [hr] at h1
      simpa using h1
    have hgetA : cGet stA.cache (get_mod_id_from_jar env.jar) = some slug := by
      rw [hAc]
      exact slugUpsert_get env st.cache (get_mod_id_from_jar env.jar) slug hslug
    have hcont : cContains
        (cSet stA.cache (get_mod_id_from_jar env.newJar) slug)
        (get_mod_id_from_jar env.jar) = true := by
      unfold cContains
      rw [cGet_cSet_ne _ _ (fun hh => hinvalid hh.symm), hgetA]
      rfl
    have hrk : rekeyRun stA.cache (get_mod_id_from_jar env.jar)
        (get_mod_id_from_jar env.newJar) slug =
        (cEraseAll (cSet stA.cache (get_mod_id_from_jar env.newJar) slug)
          (get_mod_id_from_jar env.jar), none) := by
      unfold rekeyRun pyDelRun
      rw [hcont]
      simp
    simp only [processFile, processFileRest, hb, Bool.false_eq_true, if_false, hr, hver, hfi,
      validate_mod_id, hbeq, download_file, logSt_fs, hAfs, hdest, hok,
      logSt_cache, hrk, finishRemove, saveSt_fs, saveSt_cache, saveSt_disk,
      saveSt_updated, logSt_updated]
    simp [hpath2, fsRemove, hAup, cContains_eraseAll_self,
      cGet_eraseAll_ne _ hinvalid, cGet_cSet_self]
  | true =>
    rcases hr : resolveSlugRun env (get_mod_id_from_jar env.jar) st with ⟨sr, stA⟩
    have hsr : sr = some slug := by
      have h1 := rsr_fst env (get_mod_id_from_jar env.jar) st
      rw [hr] at h1
      simpa [hslug] using h1
    subst hsr
    have hAc : stA.cache = slugUpsert env st.cache (get_mod_id_from_jar env.jar) := by
      have h1 := rsr_cache env (get_mod_id_from_jar env.jar) st
      rw [hr] at h1
      simpa using h1
    have hAfs : stA.fs = st.fs := by
      have h1 := rsr_fs env (get_mod_id_from_jar env.jar) st
      rw [hr] at h1
      simpa using h1
    have hAup : stA.updated = st.updated := by
      have h1 := rsr_updated env (get_mod_id_from_jar env.jar) st
      rw [hr] at h1
      simpa using h1
    have hgetA : cGet stA.cache (get_mod_id_from_jar env.jar) = some slug := by
      rw [hAc]
      exact slugUpsert_get env st.cache (get_mod_id_from_jar env.jar) slug hslug
    have hcont : cContains
        (cSet stA.cache (get_mod_id_from_jar env.newJar) slug)
        (get_mod_id_from_jar env.jar) = true := by
      unfold cContains
      rw [cGet_cSet_ne _ _ (fun hh => hinvalid hh.symm), hgetA]
      rfl
    have hrk : rekeyRun stA.cache (get_mod_id_from_jar env.jar)
        (get_mod_id_from_jar env.newJar) slug =
        (cEraseAll (cSet stA.cache (get_mod_id_from_jar env.newJar) slug)
          (get_mod_id_from_jar env.jar), none) := by
      unfold rekeyRun pyDelRun
      rw [hcont]
      simp
    simp only [processFile, processFileRest, hb, if_true, hr, hver, hfi,
      validate_mod_id, hbeq, download_file, logSt_fs, hAfs, hdest, hok,
      logSt_cache, hrk, finishRemove, saveSt_fs, saveSt_cache, saveSt_disk,
      saveSt_updated, logSt_updated]
    simp [hpath2, fsRemove, hAup, cContains_eraseAll_self,
      cGet_eraseAll_ne _ hinvalid, cGet_cSet_self]

theorem processFile_already_spec (env : Env) (file : String) (st : St)
    (slug : String) (v : Version) (fi : FileInfo)
    (hslug : slugOf env st.cache (get_mod_id_from_jar env.jar) = some slug)
    (hver : get_latest_version env.http = some v)
    (hfi : downloadDescriptor v = Except.ok fi)
    (hdest : joinPath modFolder fi.filename ∈ st.fs) :
    download_file env.downloadOk st.fs (joinPath modFolder fi.filename)
      = (DownResp.already, st.fs) ∧
    (processFile env file st).2 = none ∧
    (processFile env file st).1.cache =
      slugUpsert env st.cache (get_mod_id_from_jar env.jar) ∧
    (processFile env file st).1.fs = st.fs ∧
    (processFile env file st).1.updated = st.updated := by
  have hdl : download_file env.downloadOk st.fs (joinPath modFolder fi.filename)
      = (DownResp.already, st.fs) := by
    unfold download_file
    rw [if_pos hdest]
  refine ⟨hdl, ?_⟩
  cases hb : pyTruthy (get_mod_id_from_jar env.jar) with
  | false =>
    rcases hr : resolveSlugRun env (get_mod_id_from_jar env.jar)
        (logSt st "skip-unreadable") with ⟨sr, stA⟩
    have hsr : sr = some slug := by
      have h1 := rsr_fst env (get_mod_id_from_jar env.jar) (logSt st "skip-unreadable")
      rw [hr] at h1
      simpa [hslug] using h1
    subst hsr
    have hAc : stA.cache = slugUpsert env st.cache (get_mod_id_from_jar env.jar) := by
      have h1 := rsr_cache env (get_mod_id_from_jar env.jar) (logSt st "skip-unreadable")
      rw [hr] at h1
      simpa using h1
    have hAfs : stA.fs = st.fs := by
      have h1 := rsr_fs env (get_mod_id_from_jar env.jar) (logSt st "skip-unreadable")
      rw [hr] at h1
      simpa using h1
    have hAup : stA.updated = st.updated := by
      have h1 := rsr_updated env (get_mod_id_from_jar env.jar) (logSt st "skip-unreadable")
      rw [hr] at h1
      simpa using h1
    simp only [processFile, processFileRest, hb, Bool.false_eq_true, if_false, hr, hver, hfi,
      logSt_fs, hAfs, hdl, logSt_cache, logSt_updated]
    simp [hAc, hAup]
  | true =>
    rcases hr : resolveSlugRun env (get_mod_id_from_jar env.jar) st with ⟨sr, stA⟩
    have hsr : sr = some slug := by
      have h1 := rsr_fst env (get_mod_id_from_jar env.jar) st
      rw [hr] at h1
      simpa [hslug] using h1
    subst hsr
    have hAc : stA.cache = slugUpsert env st.cache (get_mod_id_from_jar env.jar) := by
      have h1 := rsr_cache env (get_mod_id_from_jar env.jar) st
      rw [hr] at h1
      simpa using h1
    have hAfs : stA.fs = st.fs := by
      have h1 := rsr_fs env (get_mod_id_from_jar env.jar) st
      rw [hr] at h1
      simpa using h1
    have hAup : stA.updated = st.updated := by
      have h1 := rsr_updated env (get_mod_id_from_jar env.jar) st
      rw [hr] at h1
      simpa using h1
    simp only [processFile, processFileRest, hb, if_true, hr, hver, hfi,
      logSt_fs, hAfs, hdl, logSt_cache, logSt_updated]
    simp [hAc, hAup]

theorem finishRemove_trace (st : St) (path file newname : String) :
    (finishRemove st path file newname).1.trace = st.trace ++ [Ev.ext "remove"] := by
  unfold finishRemove
  by_cases hp : path ∈ st.fs <;> simp [hp]

theorem processFileRest_trace_flushed (env : Env) (file : String)
    (mid : Option String) (st1 : St)
    (h1 : flushedAux false st1.trace = true) :
    flushedAux false (processFileRest env file mid st1).1.trace = true := by
  obtain ⟨t, htA0, hft⟩ := rsr_trace_flushed env mid st1
  rcases hr : resolveSlugRun env mid st1 with ⟨sr, stA⟩
  rw [hr] at htA0
  have hA : flushedAux false stA.trace = true := by
    rw [htA0]
    exact flushedAux_append _ _ false h1 hft
  cases sr with
  | none =>
    simp only [processFileRest, hr]
    exact hA
  | some slug =>
    cases hv : get_latest_version env.http with
    | none =>
      simp only [processFileRest, hr, hv, logSt_trace, List.append_assoc,
        List.cons_append, List.nil_append]
      exact flushedAux_append _ _ false hA rfl
    | some v =>
      cases hd : downloadDescriptor v with
      | error e =>
        simp only [processFileRest, hr, hv, hd, logSt_trace]
        exact flushedAux_append _ _ false hA rfl
      | ok fi =>
        rcases hdl : download_file env.downloadOk stA.fs
            (joinPath modFolder fi.filename) with ⟨resp, fs2⟩
        cases resp with
        | already =>
          simp only [processFileRest, hr, hv, hd, logSt_fs, hdl, logSt_trace,
            List.append_assoc, List.cons_append, List.nil_append]
          exact flushedAux_append _ _ false hA rfl
        | failure =>
          simp only [processFileRest, hr, hv, hd, logSt_fs, hdl, logSt_trace,
            List.append_assoc, List.cons_append, List.nil_append]
          exact flushedAux_append _ _ false hA rfl
        | success =>
          cases hvb : get_mod_id_from_jar env.newJar == mid with
          | true =>
            simp only [processFileRest, hr, hv, hd, logSt_fs, hdl,
              validate_mod_id, hvb, if_true, finishRemove_trace, logSt_trace,
              List.append_assoc, List.cons_append, List.nil_append]
            exact flushedAux_append _ _ false hA rfl
          | false =>
            have hsl : slugOf env st1.cache mid = some slug := by
              have h2 := rsr_fst env mid st1
              rw [hr] at h2
              exact h2.symm
            have hAc : stA.cache = slugUpsert env st1.cache mid := by
              have h2 := rsr_cache env mid st1
              rw [hr] at h2
              exact h2
            have hgetA : cGet stA.cache mid = some slug := by
              rw [hAc]
              exact slugUpsert_get env st1.cache mid slug hsl
            have hne : get_mod_id_from_jar env.newJar ≠ mid := by
              intro he
              rw [he] at hvb
              simp at hvb
            have hcont : cContains
                (cSet stA.cache (get_mod_id_from_jar env.newJar) slug) mid
                = true := by
              unfold cContains
              rw [cGet_cSet_ne _ _ (fun hh => hne hh.symm), hgetA]
              rfl
            have hrk : rekeyRun stA.cache mid
                (get_mod_id_from_jar env.newJar) slug =
                (cEraseAll
                  (cSet stA.cache (get_mod_id_from_jar env.newJar) slug) mid,
                 none) := by
              unfold rekeyRun pyDelRun
              rw [hcont]
              simp
            simp only [processFileRest, hr, hv, hd, logSt_fs, hdl,
              validate_mod_id, hvb, if_false, Bool.false_eq_true, logSt_cache,
              hrk, finishRemove_trace, saveSt_trace, logSt_trace,
              List.append_assoc, List.cons_append, List.nil_append]
            exact flushedAux_append _ _ false hA rfl

theorem processFile_trace_flushed (env : Env) (file : String) (st : St)
    (h : flushedAux false st.trace = true) :
    flushedAux false (processFile env file st).1.trace = true := by
  unfold processFile
  cases hb : pyTruthy (get_mod_id_from_jar env.jar) with
  | false =>
    simp only [hb, Bool.false_eq_true, if_false]
    apply processFileRest_trace_flushed
    rw [logSt_trace]
    exact flushedAux_append _ _ false h rfl
  | true =>
    simp only [hb, if_true]
    exact processFileRest_trace_flushed env file _ st h

/-- Claim C7: when an archive contains multiple entries whose names end with
the fixed manifest suffix, the extractor reads the candidate with the minimum
count of path-separator characters in its name, and among candidates with the
equal minimum count the first-encountered candidate in archive enumeration
order wins: the selected entry equals the first-encountered minimum-count
candidate. -/
theorem C7_manifest_selection (entries : List Entry) :
    selectedManifest entries = firstMinBy sepKey (candidatesOf entries) :=
  pySortByCount_head sepKey (candidatesOf entries)

/-- Claim C6: identifier extraction is total over arbitrary inputs: with the
Python exceptions modelled explicitly, every exception raised inside
get_mod_id_from_jar is caught and mapped to the absent result (never
propagated), and each listed failure mode — corrupt or unreadable container,
no manifest entry, manifest failing UTF-8 decode whose legacy-encoding
reparse fails or lacks the id field, unparseable relaxed JSON, missing
identifier field — yields the absent result. -/
theorem C6_extraction_total (j : Jar) :
    (∀ e, get_mod_id_body j = Except.error e → get_mod_id_from_jar j = none) ∧
    (∀ e, j = Jar.corrupt e → get_mod_id_from_jar j = none) ∧
    (∀ entries, j = Jar.zip entries → candidatesOf entries = [] →
      get_mod_id_from_jar j = none) ∧
    (∀ entries c rest, j = Jar.zip entries →
      pySortByCount sepKey (candidatesOf entries) = c :: rest →
      c.utf8Ok = true →
      (c.parsedUtf8 = ParseOutcome.jsonError ∨
       c.parsedUtf8 = ParseOutcome.valueError ∨
       c.parsedUtf8 = ParseOutcome.ok none) →
      get_mod_id_from_jar j = none) ∧
    (∀ entries c rest, j = Jar.zip entries →
      pySortByCount sepKey (candidatesOf entries) = c :: rest →
      c.utf8Ok = false →
      (c.parsedLatin = ParseOutcome.jsonError ∨
       c.parsedLatin = ParseOutcome.valueError ∨
       c.parsedLatin = ParseOutcome.ok none) →
      get_mod_id_from_jar j = none) := by
  refine ⟨?_, ?_, ?_, ?_, ?_⟩
  · intro e he
    unfold get_mod_id_from_jar
    rw [he]
  · intro e he
    subst he
    rfl
  · intro entries he hc
    subst he
    simp [get_mod_id_from_jar, get_mod_id_body, innerBody, hc]
  · intro entries c rest he hs hu hp
    subst he
    have hne : (candidatesOf entries).isEmpty = false := by
      cases hcc : candidatesOf entries with
      | nil =>
        rw [hcc] at hs
        simp [pySortByCount] at hs
      | cons a l => rfl
    simp only [get_mod_id_from_jar, get_mod_id_body, innerBody,
      selectedManifest, hne, hs, Bool.false_eq_true, if_false,
      List.head?_cons]
    rcases hp with hp | hp | hp <;>
      simp [readManifest, loadUtf8, hu, hp]
  · intro entries c rest he hs hu hp
    subst he
    have hne : (candidatesOf entries).isEmpty = false := by
      cases hcc : candidatesOf entries with
      | nil =>
        rw [hcc] at hs
        simp [pySortByCount] at hs
      | cons a l => rfl
    simp only [get_mod_id_from_jar, get_mod_id_body, innerBody,
      selectedManifest, hne, hs, Bool.false_eq_true, if_false,
      List.head?_cons]
    rcases hp with hp | hp | hp <;>
      simp [readManifest, loadUtf8, loadLatin, hu, hp]

/-- Witness for C6 at concrete inputs: a corrupt container, an archive with
no manifest entry, and an archive whose manifest fails UTF-8 decode and whose
latin-1 reparse fails, each evaluating to the absent result. -/
theorem C6_extraction_total_witness :
    get_mod_id_from_jar (Jar.corrupt PyExn.osError) = none ∧
    get_mod_id_from_jar emptyJar = none ∧
    get_mod_id_from_jar (Jar.zip [badUtf8Entry]) = none :=
  ⟨(C6_extraction_total (Jar.corrupt PyExn.osError)).2.1 PyExn.osError rfl,
   (C6_extraction_total emptyJar).2.2.1 [] rfl (by decide),
   (C6_extraction_total (Jar.zip [badUtf8Entry])).2.2.2.2 [badUtf8Entry]
     badUtf8Entry [] rfl (by decide) (by decide) (Or.inl (by decide))⟩

/-- Claim C8: the remote version resolver returns absent and never raises on
a transport error, on a response body whose JSON decode raises, on any
non-200 status, and on an empty version list; on a 200 response with a
non-empty list it returns exactly the first entry with no client-side
reordering; and the reconciler's download descriptor is the first element of
that entry's files list. -/
theorem C8_version_resolver (s : Nat) (b : List Version) (v : Version)
    (vs : List Version) (f : FileInfo) (fl : List FileInfo) :
    get_latest_version HttpResult.transportError = none ∧
    get_latest_version (HttpResult.badBody s) = none ∧
    (s ≠ 200 → get_latest_version (HttpResult.response s b) = none) ∧
    get_latest_version (HttpResult.response 200 []) = none ∧
    get_latest_version (HttpResult.response 200 (v :: vs)) = some v ∧
    (v.files = f :: fl → downloadDescriptor v = Except.ok f) := by
  refine ⟨rfl, rfl, ?_, rfl, rfl, ?_⟩
  · intro hne
    simp [get_latest_version, hne]
  · intro hf
    simp [downloadDescriptor, hf]

/-- Witness for C8 at concrete inputs: status 404 yields absent, status 200
with a non-empty list yields its first entry, and the download descriptor of
that entry is the first file. -/
theorem C8_version_resolver_witness :
    get_latest_version (HttpResult.response 404 [fooVersion]) = none ∧
    get_latest_version (HttpResult.response 200 [fooVersion]) = some fooVersion ∧
    downloadDescriptor fooVersion = Except.ok fooFile :=
  ⟨(C8_version_resolver 404 [fooVersion] fooVersion [] fooFile []).2.2.1
     (by decide),
   (C8_version_resolver 404 [] fooVersion [] fooFile []).2.2.2.2.1,
   (C8_version_resolver 404 [] fooVersion [] fooFile []).2.2.2.2.2 rfl⟩

/-- Claim C5 counterexample: rekey("a" to "b") on a cache without key "a"
both raises KeyError and changes the mapping (the new identifier has already
been inserted when the del raises), refuting at a concrete input the claim
that the operation is a safe no-op when the old identifier is absent. -/
theorem C5_rekey_missing_oldid_counterexample :
    rekeyRun [] (some "a") (some "b") "s"
      = ([(some "b", "s")], some PyExn.keyError) ∧
    ([(some "b", "s")] : Cache) ≠ ([] : Cache) := by
  decide

/-- Claim C5 (amended): when the old identifier is absent from the cache and
differs from the new identifier, the code's rekey (lines 159-161) is not a
safe no-op: it inserts new_id mapped to the slug and then raises KeyError at
the del of the old identifier, so the in-memory mapping is changed and the
save of line 161 is not reached. -/
theorem C5_rekey_missing_oldid (c : Cache) (oldId newId : Option String)
    (slug : String) (habs : cContains c oldId = false) (hne : oldId ≠ newId) :
    rekeyRun c oldId newId slug = (cSet c newId slug, some PyExn.keyError) := by
  unfold rekeyRun pyDelRun
  have h2 : cContains (cSet c newId slug) oldId = false := by
    unfold cContains
    rw [cGet_cSet_ne _ _ hne]
    unfold cContains at habs
    exact habs
  simp [h2]

/-- Witness for the amended C5 at a concrete input. -/
theorem C5_rekey_missing_oldid_witness :
    cContains [] (some "a") = false ∧
    (some "a" : Option String) ≠ some "b" ∧
    rekeyRun [] (some "a") (some "b") "s"
      = (cSet [] (some "b") "s", some PyExn.keyError) :=
  ⟨by decide, by decide,
   C5_rekey_missing_oldid [] (some "a") (some "b") "s" (by decide) (by decide)⟩

/-- Claim C1 evidence (code bug): at a concrete archive whose identifier
extraction returns absent (a corrupt container) and an empty cache, the loop
body of main does not skip immediately: because line 125's block lacks a
continue, it falls through to the cache lookup and prompts the operator (the
prompt event is in the trace), and the non-skip reply mutates the cache with
the absent identifier as key — contradicting the claimed immediate SKIPPED
with no lookup, no prompt, and no cache mutation. -/
theorem C1_extraction_fallthrough :
    get_mod_id_from_jar c1Env.jar = none ∧
    Ev.ext "prompt" ∈
      (processFile c1Env "broken.jar"
        (mkSt [] [joinPath modFolder "broken.jar"])).1.trace ∧
    cContains
      (processFile c1Env "broken.jar"
        (mkSt [] [joinPath modFolder "broken.jar"])).1.cache none = true := by
  decide

/-- Claim C2 counterexample: a concrete successful reconciliation in which
the post-download identifier equals the pre-download identifier but the slug
came from the operator prompt: the run raises nothing and records the update,
yet the final cache contains the key "foo" that the initial empty cache did
not contain — so the cache does gain a new key. -/
theorem C2_prompt_upsert_counterexample :
    (processFile c2Env "foo.jar"
      (mkSt [] [joinPath modFolder "foo.jar"])).2 = none ∧
    get_mod_id_from_jar c2Env.newJar = get_mod_id_from_jar c2Env.jar ∧
    (processFile c2Env "foo.jar"
      (mkSt [] [joinPath modFolder "foo.jar"])).1.updated
      = [("foo.jar", "foo-2.0.jar")] ∧
    cContains (processFile c2Env "foo.jar"
      (mkSt [] [joinPath modFolder "foo.jar"])).1.cache (some "foo") = true ∧
    cContains ([] : Cache) (some "foo") = false := by
  decide

/-- Claim C2 (amended): for every successful reconciliation that resolves its
slug from the cache (cache hit, so no operator prompt) and in which the
identifier extracted from the downloaded file equals the identifier of the
original archive, the cache is unchanged — in particular it contains no key
it did not contain before — the original archive file no longer exists, and
the newly downloaded file exists. -/
theorem C2_cachehit_frame (env : Env) (file : String) (st : St)
    (slug : String) (v : Version) (fi : FileInfo)
    (hhit : truthify (cGet st.cache (get_mod_id_from_jar env.jar)) = some slug)
    (hver : get_latest_version env.http = some v)
    (hfi : downloadDescriptor v = Except.ok fi)
    (hdest : joinPath modFolder fi.filename ∉ st.fs)
    (hok : env.downloadOk = true)
    (hvalid : get_mod_id_from_jar env.newJar = get_mod_id_from_jar env.jar)
    (hpath : joinPath modFolder file ∈ st.fs) :
    (processFile env file st).2 = none ∧
    (processFile env file st).1.cache = st.cache ∧
    joinPath modFolder file ∉ (processFile env file st).1.fs ∧
    joinPath modFolder fi.filename ∈ (processFile env file st).1.fs ∧
    (processFile env file st).1.updated = st.updated ++ [(file, fi.filename)] := by
  have hslug : slugOf env st.cache (get_mod_id_from_jar env.jar) = some slug := by
    unfold slugOf
    rw [hhit]
  have hsu : slugUpsert env st.cache (get_mod_id_from_jar env.jar) = st.cache := by
    unfold slugUpsert
    rw [hhit]
  obtain ⟨h1, h2, h3, h4⟩ := processFile_valid_spec env file st slug v fi
    hslug hver hfi hdest hok hvalid hpath
  have hnepd : joinPath modFolder fi.filename ≠ joinPath modFolder file := by
    intro he
    rw [he] at hdest
    exact hdest hpath
  refine ⟨h1, by rw [h2, hsu], ?_, ?_, h4⟩
  · rw [h3]
    simp [fsRemove, List.mem_filter]
  · rw [h3]
    simp [fsRemove, List.mem_filter, hnepd]

/-- Witness for the amended C2: cache hit on "foo", equal identifiers, the
original file is gone, the new file exists, cache unchanged. -/
theorem C2_cachehit_frame_witness :
    (processFile c2Env "foo.jar"
      (mkSt [(some "foo", "foomod")] [joinPath modFolder "foo.jar"])).2
      = none ∧
    (processFile c2Env "foo.jar"
      (mkSt [(some "foo", "foomod")] [joinPath modFolder "foo.jar"])).1.cache
      = [(some "foo", "foomod")] ∧
    joinPath modFolder "foo.jar" ∉
      (processFile c2Env "foo.jar"
        (mkSt [(some "foo", "foomod")] [joinPath modFolder "foo.jar"])).1.fs ∧
    joinPath modFolder "foo-2.0.jar" ∈
      (processFile c2Env "foo.jar"
        (mkSt [(some "foo", "foomod")] [joinPath modFolder "foo.jar"])).1.fs ∧
    (processFile c2Env "foo.jar"
      (mkSt [(some "foo", "foomod")] [joinPath modFolder "foo.jar"])).1.updated
      = [] ++ [("foo.jar", "foo-2.0.jar")] := by
  exact C2_cachehit_frame c2Env "foo.jar"
    (mkSt [(some "foo", "foomod")] [joinPath modFolder "foo.jar"])
    "foomod" fooVersion fooFile (by decide) (by decide) rfl
    (by decide) rfl (by decide) (by decide)

/-- Claim C3: for every reconciliation in which the identifier extracted from
the downloaded file differs from the original identifier (slug resolved,
download succeeded), afterwards the cache no longer contains the old
identifier as a key, contains the new identifier mapped to the same slug the
old identifier was mapped to, the original archive is deleted, and the update
is still recorded as completed. -/
theorem C3_rekey_reconciliation (env : Env) (file : String) (st : St)
    (slug : String) (v : Version) (fi : FileInfo)
    (hslug : slugOf env st.cache (get_mod_id_from_jar env.jar) = some slug)
    (hver : get_latest_version env.http = some v)
    (hfi : downloadDescriptor v = Except.ok fi)
    (hdest : joinPath modFolder fi.filename ∉ st.fs)
    (hok : env.downloadOk = true)
    (hinvalid : get_mod_id_from_jar env.newJar ≠ get_mod_id_from_jar env.jar)
    (hpath : joinPath modFolder file ∈ st.fs) :
    (processFile env file st).2 = none ∧
    cContains (processFile env file st).1.cache (get_mod_id_from_jar env.jar)
      = false ∧
    cGet (processFile env file st).1.cache (get_mod_id_from_jar env.newJar)
      = some slug ∧
    joinPath modFolder file ∉ (processFile env file st).1.fs ∧
    (processFile env file st).1.updated = st.updated ++ [(file, fi.filename)] := by
  obtain ⟨h1, h2, h3, h4, h5, h6⟩ := processFile_rekey_spec env file st slug
    v fi hslug hver hfi hdest hok hinvalid hpath
  refine ⟨h1, h2, h3, ?_, h5⟩
  rw [h4]
  simp [fsRemove, List.mem_filter]

/-- Witness for C3: "foo" becomes "bar" after the update; the cache drops
"foo", gains "bar" mapped to "foomod", the original file is gone, and the
update is recorded. -/
theorem C3_rekey_reconciliation_witness :
    (processFile c3Env "foo.jar"
      (mkSt [(some "foo", "foomod")] [joinPath modFolder "foo.jar"])).2
      = none ∧
    cContains (processFile c3Env "foo.jar"
      (mkSt [(some "foo", "foomod")] [joinPath modFolder "foo.jar"])).1.cache
      (some "foo") = false ∧
    cGet (processFile c3Env "foo.jar"
      (mkSt [(some "foo", "foomod")] [joinPath modFolder "foo.jar"])).1.cache
      (some "bar") = some "foomod" ∧
    joinPath modFolder "foo.jar" ∉
      (processFile c3Env "foo.jar"
        (mkSt [(some "foo", "foomod")] [joinPath modFolder "foo.jar"])).1.fs ∧
    (processFile c3Env "foo.jar"
      (mkSt [(some "foo", "foomod")] [joinPath modFolder "foo.jar"])).1.updated
      = [] ++ [("foo.jar", "foo-2.0.jar")] := by
  exact C3_rekey_reconciliation c3Env "foo.jar"
    (mkSt [(some "foo", "foomod")] [joinPath modFolder "foo.jar"])
    "foomod" fooVersion fooFile (by decide) (by decide) rfl
    (by decide) rfl (by decide) (by decide)

/-- Claim C4: for every reconciliation whose resolved destination filename
already exists locally, download_file returns the distinct already-present
signal "I" without writing any bytes (the path set is unchanged), the loop
continues with the original archive not deleted, the cache not mutated at
this step (it equals the cache as of slug resolution), no exception raised
and no update recorded — hence a second run over an already-updated archive
performs no re-download and no deletion. -/
theorem C4_already_present_guard (env : Env) (file : String) (st : St)
    (slug : String) (v : Version) (fi : FileInfo)
    (hslug : slugOf env st.cache (get_mod_id_from_jar env.jar) = some slug)
    (hver : get_latest_version env.http = some v)
    (hfi : downloadDescriptor v = Except.ok fi)
    (hdest : joinPath modFolder fi.filename ∈ st.fs) :
    download_file env.downloadOk st.fs (joinPath modFolder fi.filename)
      = (DownResp.already, st.fs) ∧
    (processFile env file st).2 = none ∧
    (processFile env file st).1.cache =
      slugUpsert env st.cache (get_mod_id_from_jar env.jar) ∧
    (processFile env file st).1.fs = st.fs ∧
    (processFile env file st).1.updated = st.updated :=
  processFile_already_spec env file st slug v fi hslug hver hfi hdest

/-- Witness for C4: with foo-2.0.jar already present, the download step
signals already-present, nothing is written or deleted, the cache keeps only
its cached entry, and no update is recorded. -/
theorem C4_already_present_guard_witness :
    download_file c2Env.downloadOk
      [joinPath modFolder "foo.jar", joinPath modFolder "foo-2.0.jar"]
      (joinPath modFolder "foo-2.0.jar")
      = (DownResp.already,
         [joinPath modFolder "foo.jar", joinPath modFolder "foo-2.0.jar"]) ∧
    (processFile c2Env "foo.jar"
      (mkSt [(some "foo", "foomod")]
        [joinPath modFolder "foo.jar", joinPath modFolder "foo-2.0.jar"])).2
      = none ∧
    (processFile c2Env "foo.jar"
      (mkSt [(some "foo", "foomod")]
        [joinPath modFolder "foo.jar",
         joinPath modFolder "foo-2.0.jar"])).1.cache
      = slugUpsert c2Env [(some "foo", "foomod")]
          (get_mod_id_from_jar c2Env.jar) ∧
    (processFile c2Env "foo.jar"
      (mkSt [(some "foo", "foomod")]
        [joinPath modFolder "foo.jar",
         joinPath modFolder "foo-2.0.jar"])).1.fs
      = [joinPath modFolder "foo.jar", joinPath modFolder "foo-2.0.jar"] ∧
    (processFile c2Env "foo.jar"
      (mkSt [(some "foo", "foomod")]
        [joinPath modFolder "foo.jar",
         joinPath modFolder "foo-2.0.jar"])).1.updated = [] := by
  exact C4_already_present_guard c2Env "foo.jar"
    (mkSt [(some "foo", "foomod")]
      [joinPath modFolder "foo.jar", joinPath modFolder "foo-2.0.jar"])
    "foomod" fooVersion fooFile (by decide) (by decide) rfl (by decide)

/-- Claim C9: every mutation of the in-memory cache performed during an
iteration — the upsert of an operator-supplied slug and the rekey after an
identifier mismatch — is immediately followed by a full rewrite of the
backing store (a save event), before any further per-archive processing and
with no mutation left pending: an iteration started from any trace satisfying
the flush discipline produces a trace that still satisfies it. -/
theorem C9_save_after_mutation (env : Env) (file : String) (st : St)
    (h : flushedAux false st.trace = true) :
    flushedAux false (processFile env file st).1.trace = true :=
  processFile_trace_flushed env file st h

/-- Witness for C9 on a concrete run that performs a prompt upsert, a
download, and a file removal. -/
theorem C9_save_after_mutation_witness :
    flushedAux false (mkSt [] [joinPath modFolder "foo.jar"]).trace = true ∧
    flushedAux false
      (processFile c2Env "foo.jar"
        (mkSt [] [joinPath modFolder "foo.jar"])).1.trace = true :=
  ⟨by decide,
   C9_save_after_mutation c2Env "foo.jar"
     (mkSt [] [joinPath modFolder "foo.jar"]) (by decide)⟩

/-- Claim C10: for every reconciliation in which the freshly downloaded file
yields no extractable identifier, the program does not treat this as a
failure: no exception is raised, the original archive is still deleted, the
archive is recorded as updated, and the cache is rekeyed by inserting the
absent identifier (None) as a key mapped to the slug while deleting the
original identifier's entry. -/
theorem C10_absent_newid_update (env : Env) (file : String) (st : St)
    (slug oid : String) (v : Version) (fi : FileInfo)
    (hslug : slugOf env st.cache (get_mod_id_from_jar env.jar) = some slug)
    (hoid : get_mod_id_from_jar env.jar = some oid)
    (hnone : get_mod_id_from_jar env.newJar = none)
    (hver : get_latest_version env.http = some v)
    (hfi : downloadDescriptor v = Except.ok fi)
    (hdest : joinPath modFolder fi.filename ∉ st.fs)
    (hok : env.downloadOk = true)
    (hpath : joinPath modFolder file ∈ st.fs) :
    (processFile env file st).2 = none ∧
    cContains (processFile env file st).1.cache (some oid) = false ∧
    cGet (processFile env file st).1.cache none = some slug ∧
    joinPath modFolder file ∉ (processFile env file st).1.fs ∧
    (processFile env file st).1.updated = st.updated ++ [(file, fi.filename)] := by
  have hinvalid : get_mod_id_from_jar env.newJar ≠ get_mod_id_from_jar env.jar := by
    rw [hnone, hoid]
    exact fun hh => Option.noConfusion hh
  obtain ⟨h1, h2, h3, h4, h5, h6⟩ := processFile_rekey_spec env file st slug
    v fi hslug hver hfi hdest hok hinvalid hpath
  rw [hoid] at h2
  rw [hnone] at h3
  refine ⟨h1, h2, h3, ?_, h5⟩
  rw [h4]
  simp [fsRemove, List.mem_filter]

/-- Witness for C10: the downloaded jar has no manifest; the update still
completes, the original file is removed, and the cache maps None to the
slug while "foo" is gone. -/
theorem C10_absent_newid_update_witness :
    (processFile c10Env "foo.jar"
      (mkSt [(some "foo", "foomod")] [joinPath modFolder "foo.jar"])).2
      = none ∧
    cContains (processFile c10Env "foo.jar"
      (mkSt [(some "foo", "foomod")] [joinPath modFolder "foo.jar"])).1.cache
      (some "foo") = false ∧
    cGet (processFile c10Env "foo.jar"
      (mkSt [(some "foo", "foomod")] [joinPath modFolder "foo.jar"])).1.cache
      none = some "foomod" ∧
    joinPath modFolder "foo.jar" ∉
      (processFile c10Env "foo.jar"
        (mkSt [(some "foo", "foomod")] [joinPath modFolder "foo.jar"])).1.fs ∧
    (processFile c10Env "foo.jar"
      (mkSt [(some "foo", "foomod")] [joinPath modFolder "foo.jar"])).1.updated
      = [] ++ [("foo.jar", "foo-2.0.jar")] := by
  exact C10_absent_newid_update c10Env "foo.jar"
    (mkSt [(some "foo", "foomod")] [joinPath modFolder "foo.jar"])
    "foomod" "foo" fooVersion fooFile (by decide) (by decide) (by decide)
    (by decide) rfl (by decide) rfl (by decide)
